import Mathlib

/-!
Verification of the credential flow of `src/main.py` (FastAPI auth backend).

The embedding models:
* `_hash_password` (SHA-256 of salt ++ password) as `hashPassword`,
  with the 16 random bytes drawn by `secrets.token_hex(16)` passed
  explicitly as a `rng : List Nat` parameter;
* the `authuser` Mongo collection as a `List AuthRec`, the global `db`
  handle as an `Option` around it (Python `db is None`);
* the endpoint handlers `register_user`, `login_user` and the
  `/test` collections field as pure functions returning an
  `Except HTTPException _` together with the resulting store.

SHA-256 itself is implemented from the FIPS 180-4 algorithm over
`List Nat` bytes, with 32-bit words represented as `Nat` reduced
modulo `2 ^ 32`.
-/

/-- 32-bit truncation, the word size of SHA-256. -/
def w32 (n : Nat) : Nat := n % 4294967296

/-- Right rotation of a 32-bit word by `n` bits. -/
def rotr (n x : Nat) : Nat := w32 ((x >>> n) ||| (x <<< (32 - n)))

/-- SHA-256 small sigma 0. -/
def ssig0 (x : Nat) : Nat := (rotr 7 x) ^^^ (rotr 18 x) ^^^ (x >>> 3)

/-- SHA-256 small sigma 1. -/
def ssig1 (x : Nat) : Nat := (rotr 17 x) ^^^ (rotr 19 x) ^^^ (x >>> 10)

/-- SHA-256 big Sigma 0. -/
def bsig0 (x : Nat) : Nat := (rotr 2 x) ^^^ (rotr 13 x) ^^^ (rotr 22 x)

/-- SHA-256 big Sigma 1. -/
def bsig1 (x : Nat) : Nat := (rotr 6 x) ^^^ (rotr 11 x) ^^^ (rotr 25 x)

/-- SHA-256 choice function. -/
def chf (x y z : Nat) : Nat := (x &&& y) ^^^ ((x ^^^ 4294967295) &&& z)

/-- SHA-256 majority function. -/
def maj (x y z : Nat) : Nat := (x &&& y) ^^^ (x &&& z) ^^^ (y &&& z)

/-- The 64 SHA-256 round constants (FIPS 180-4 §4.2.2, here in decimal). -/
def sha256K : List Nat :=
  [1116352408, 1899447441, 3049323471, 3921009573, 961987163, 1508970993, 2453635748,
   2870763221, 3624381080, 310598401, 607225278, 1426881987, 1925078388, 2162078206,
   2614888103, 3248222580, 3835390401, 4022224774, 264347078, 604807628, 770255983,
   1249150122, 1555081692, 1996064986, 2554220882, 2821834349, 2952996808, 3210313671,
   3336571891, 3584528711, 113926993, 338241895, 666307205, 773529912, 1294757372,
   1396182291, 1695183700, 1986661051, 2177026350, 2456956037, 2730485921, 2820302411,
   3259730800, 3345764771, 3516065817, 3600352804, 4094571909, 275423344, 430227734,
   506948616, 659060556, 883997877, 958139571, 1322822218, 1537002063, 1747873779,
   1955562222, 2024104815, 2227730452, 2361852424, 2428436474, 2756734187, 3204031479,
   3329325298]

/-- The SHA-256 hash state: eight 32-bit words. -/
structure Hash8 where
  a : Nat
  b : Nat
  c : Nat
  d : Nat
  e : Nat
  f : Nat
  g : Nat
  h : Nat
deriving Repr, DecidableEq

/-- The SHA-256 initial hash value (FIPS 180-4 §5.3.3, here in decimal). -/
def sha256H0 : Hash8 :=
  ⟨1779033703, 3144134277, 1013904242, 2773480762,
   1359893119, 2600822924, 528734635, 1541459225⟩

/-- Extend the 16 message-schedule words to 64, appending `n` more words. -/
def extendW : Nat → Array Nat → Array Nat
  | 0, w => w
  | n + 1, w =>
      let s := w.size
      let nw := w32 (w.getD (s - 16) 0 + ssig0 (w.getD (s - 15) 0) +
                     w.getD (s - 7) 0 + ssig1 (w.getD (s - 2) 0))
      extendW n (w.push nw)

/-- One SHA-256 round: update the working variables with constant `k` and schedule word `w`. -/
def sha256Round (st : Hash8) (kw : Nat × Nat) : Hash8 :=
  let t1 := w32 (st.h + bsig1 st.e + chf st.e st.f st.g + kw.1 + kw.2)
  let t2 := w32 (bsig0 st.a + maj st.a st.b st.c)
  ⟨w32 (t1 + t2), st.a, st.b, st.c, w32 (st.d + t1), st.e, st.f, st.g⟩

/-- Interpret four bytes as a big-endian 32-bit word. -/
def wordOfBytes : List Nat → Nat
  | [b0, b1, b2, b3] => b0 * 16777216 + b1 * 65536 + b2 * 256 + b3
  | _ => 0

/-- Split a list into chunks of `n` elements (with `fuel` bounding the recursion). -/
def chunksOf (fuel n : Nat) (l : List Nat) : List (List Nat) :=
  match fuel with
  | 0 => []
  | fuel + 1 => if l = [] then [] else l.take n :: chunksOf fuel n (l.drop n)

/-- Process one 64-byte chunk: build the message schedule, run 64 rounds, add to the state. -/
def sha256Chunk (hs : Hash8) (chunk : List Nat) : Hash8 :=
  let w16 := (chunksOf 16 4 chunk).map wordOfBytes
  let w := extendW 48 (Array.mk w16)
  let st := (sha256K.zip w.toList).foldl sha256Round hs
  ⟨w32 (hs.a + st.a), w32 (hs.b + st.b), w32 (hs.c + st.c), w32 (hs.d + st.d),
   w32 (hs.e + st.e), w32 (hs.f + st.f), w32 (hs.g + st.g), w32 (hs.h + st.h)⟩

/-- Big-endian 8-byte encoding of `n` (the bit-length field of SHA-256 padding). -/
def lenBytes (n : Nat) : List Nat :=
  [n >>> 56 % 256, n >>> 48 % 256, n >>> 40 % 256, n >>> 32 % 256,
   n >>> 24 % 256, n >>> 16 % 256, n >>> 8 % 256, n % 256]

/-- SHA-256 padding: append `0x80`, zeros to 56 mod 64, then the 64-bit bit length. -/
def sha256Pad (msg : List Nat) : List Nat :=
  let padLen := (55 + 64 - msg.length % 64) % 64 + 1
  msg ++ 128 :: List.replicate (padLen - 1) 0 ++ lenBytes (msg.length * 8)

/-- SHA-256 of a byte list, as the final eight-word hash state. -/
def sha256Words (msg : List Nat) : Hash8 :=
  let padded := sha256Pad msg
  (chunksOf (padded.length / 64 + 1) 64 padded).foldl sha256Chunk sha256H0

/-- Big-endian 4-byte decomposition of a 32-bit word. -/
def wordBytes (x : Nat) : List Nat :=
  [x >>> 24 % 256, x >>> 16 % 256, x >>> 8 % 256, x % 256]

/-- SHA-256 digest of a byte list, as its 32 bytes. -/
def sha256Bytes (msg : List Nat) : List Nat :=
  let hs := sha256Words msg
  wordBytes hs.a ++ wordBytes hs.b ++ wordBytes hs.c ++ wordBytes hs.d ++
  wordBytes hs.e ++ wordBytes hs.f ++ wordBytes hs.g ++ wordBytes hs.h

/-- The sixteen lowercase hexadecimal digits. -/
def hexDigits : List Char := "0123456789abcdef".data

/-- The hexadecimal digit for a nibble. -/
def hexDigit (n : Nat) : Char := hexDigits.getD n '0'

/-- Lowercase two-character hexadecimal rendering of one byte (`%02x`). -/
def byteToHex (b : Nat) : List Char := [hexDigit (b / 16 % 16), hexDigit (b % 16)]

/-- Lowercase hexadecimal string of a byte list (Python `bytes.hex()` / `hexdigest`). -/
def bytesToHex (bs : List Nat) : String := String.mk (bs.flatMap byteToHex)

/-- UTF-8 bytes of a string (Python `str.encode()`), via core `String.utf8EncodeChar`. -/
def strBytes (s : String) : List Nat :=
  (s.data.flatMap String.utf8EncodeChar).map UInt8.toNat

/-- `hashlib.sha256(s.encode()).hexdigest()`: lowercase-hex SHA-256 of a string. -/
def sha256HexOfString (s : String) : String := bytesToHex (sha256Bytes (strBytes s))

/-- HTTP failure, as raised by `HTTPException(status_code, detail)`. -/
structure HTTPException where
  status_code : Nat
  detail : String
deriving Repr, DecidableEq

/-- `_hash_password(password, salt=None)` from `src/main.py`:
if the salt is `None` or empty, use `secrets.token_hex(16)` — modelled by
hex-encoding the 16 random bytes `rng` drawn by the OS — and return
`(sha256 hex of salt ++ password, salt)`. -/
def hashPassword (password : String) (salt : Option String) (rng : List Nat) :
    String × String :=
  let salt :=
    match salt with
    | none => bytesToHex rng
    | some s => if s = "" then bytesToHex rng else s
  (sha256HexOfString (salt ++ password), salt)

/-- A document of the `authuser` collection, as persisted by `register_user`
(`AuthUser(email, name, password_hash, salt)` from `schemas`). -/
structure AuthRec where
  email : String
  name : String
  password_hash : String
  salt : String
deriving Repr, DecidableEq

/-- The `authuser` collection of the document store. -/
abbrev Store := List AuthRec

/-- Request body of `POST /api/auth/register`. -/
structure RegisterRequest where
  name : String
  email : String
  password : String
deriving Repr, DecidableEq

/-- Request body of `POST /api/auth/login`. -/
structure LoginRequest where
  email : String
  password : String
deriving Repr, DecidableEq

/-- Success body of both auth endpoints. -/
structure AuthResponse where
  token : String
  name : String
  email : String
deriving Repr, DecidableEq

/-- `register_user` from `src/main.py`. `db = none` models `db is None`;
`rng` models the 16 random bytes behind `secrets.token_hex(16)`.
`db[COLL_AUTH].find({"email": e}).limit(1)` is the filtered collection
truncated to one element; `create_document` (repo file `database.py`, not
under `src/`) is modelled from the spec: "Persist a new Credential Record
…; the store assigns an opaque identifier, not otherwise used" — an
insert of the document into the collection. The handler returns the
response (or the raised exception) together with the resulting store. -/
def register_user (db : Option Store) (rng : List Nat) (payload : RegisterRequest) :
    Except HTTPException AuthResponse × Option Store :=
  match db with
  | none => (.error ⟨500, "Database not configured"⟩, none)
  | some store =>
    let existing := (store.filter (fun r => r.email = payload.email)).take 1
    if existing ≠ [] then
      (.error ⟨400, "Email already registered"⟩, some store)
    else
      let ps := hashPassword payload.password none rng
      let doc : AuthRec := ⟨payload.email, payload.name, ps.1, ps.2⟩
      let token := sha256HexOfString (payload.email ++ ps.2)
      (.ok ⟨token, payload.name, payload.email⟩, some (store ++ [doc]))

/-- `login_user` from `src/main.py`. `db[COLL_AUTH].find_one({"email": e})`
is the first matching document; `rng` models the random bytes
`_hash_password` would draw if the stored salt were empty. -/
def login_user (db : Option Store) (rng : List Nat) (payload : LoginRequest) :
    Except HTTPException AuthResponse × Option Store :=
  match db with
  | none => (.error ⟨500, "Database not configured"⟩, none)
  | some store =>
    match store.find? (fun r => r.email = payload.email) with
    | none => (.error ⟨401, "Invalid credentials"⟩, some store)
    | some user =>
      let th := hashPassword payload.password (some user.salt) rng
      if th.1 ≠ user.password_hash then
        (.error ⟨401, "Invalid credentials"⟩, some store)
      else
        let token := sha256HexOfString (payload.email ++ user.salt)
        (.ok ⟨token, user.name, payload.email⟩, some store)

/-- The `collections` field of the `GET /test` response in `src/main.py`:
`[]` initially; if `db` is available and `db.list_collection_names()`
succeeds (modelled as `Except`), it becomes `collections[:10]`; on an
exception or an unavailable `db` it stays `[]`. -/
def testCollections (db : Option (Except String (List String))) : List String :=
  match db with
  | none => []
  | some (.error _) => []
  | some (.ok colls) => colls.take 10

/-- A character is one of the sixteen lowercase hexadecimal digits. -/
def isLowerHexChar (c : Char) : Bool := decide (c ∈ hexDigits)

/-! ### Helper lemmas about hexadecimal rendering and SHA-256 digests -/

theorem getD_mem_or_eq (l : List Char) (n : Nat) (d : Char) :
    l.getD n d ∈ l ∨ l.getD n d = d := by
  induction l generalizing n with
  | nil => right; rfl
  | cons a tl ih =>
    cases n with
    | zero => left; rw [List.getD_cons_zero]; exact List.mem_cons_self a tl
    | succ n =>
      rw [List.getD_cons_succ]
      rcases ih n with h | h
      · left; exact List.mem_cons_of_mem a h
      · right; exact h

theorem hexDigit_mem (n : Nat) : hexDigit n ∈ hexDigits := by
  rcases getD_mem_or_eq hexDigits n '0' with h | h
  · exact h
  · rw [hexDigit, h]; decide

theorem byteToHex_hex (b : Nat) : ∀ c ∈ byteToHex b, isLowerHexChar c = true := by
  intro c hc
  rw [byteToHex] at hc
  rcases List.mem_cons.mp hc with h | h
  · subst h; simpa [isLowerHexChar] using hexDigit_mem (b / 16 % 16)
  · rcases List.mem_cons.mp h with h' | h'
    · subst h'; simpa [isLowerHexChar] using hexDigit_mem (b % 16)
    · exact absurd h' (List.not_mem_nil c)

theorem length_flatMap_byteToHex (bs : List Nat) :
    (bs.flatMap byteToHex).length = 2 * bs.length := by
  induction bs with
  | nil => rfl
  | cons b tl ih => simp [byteToHex, ih]; omega

theorem bytesToHex_length (bs : List Nat) : (bytesToHex bs).length = 2 * bs.length := by
  show (bs.flatMap byteToHex).length = 2 * bs.length
  exact length_flatMap_byteToHex bs

theorem bytesToHex_all_hex (bs : List Nat) :
    (bytesToHex bs).data.all isLowerHexChar = true := by
  rw [List.all_eq_true]
  intro c hc
  rw [show (bytesToHex bs).data = bs.flatMap byteToHex from rfl, List.mem_flatMap] at hc
  rcases hc with ⟨b, _, hcb⟩
  exact byteToHex_hex b c hcb

theorem ne_empty_of_length_pos {s : String} (h : 0 < s.length) : s ≠ "" := by
  intro he
  rw [he] at h
  exact Nat.lt_irrefl 0 h

theorem sha256Bytes_length (m : List Nat) : (sha256Bytes m).length = 32 := by
  simp [sha256Bytes, wordBytes]

theorem sha256HexOfString_length (s : String) : (sha256HexOfString s).length = 64 := by
  rw [sha256HexOfString, bytesToHex_length, sha256Bytes_length]

theorem sha256HexOfString_ne_empty (s : String) : sha256HexOfString s ≠ "" :=
  ne_empty_of_length_pos (by rw [sha256HexOfString_length]; decide)

theorem sha256HexOfString_all_hex (s : String) :
    (sha256HexOfString s).data.all isLowerHexChar = true :=
  bytesToHex_all_hex _

theorem strBytes_append (s t : String) : strBytes (s ++ t) = strBytes s ++ strBytes t := by
  rw [strBytes, strBytes, strBytes, String.data_append,
    List.flatMap_append, List.map_append]

/-! ### Helper lemmas about the store -/

theorem take_one_eq_nil {l : List AuthRec} (h : l.take 1 = []) : l = [] := by
  cases l with
  | nil => rfl
  | cons a tl => simp [List.take] at h

theorem find?_none_of_filter_nil {l : List AuthRec} {p : AuthRec → Bool}
    (h : l.filter p = []) : l.find? p = none := by
  rw [List.find?_eq_none]
  intro a ha
  exact (List.filter_eq_nil_iff.mp h) a ha

theorem find?_append_none {l₁ l₂ : List AuthRec} {p : AuthRec → Bool}
    (h : l₁.find? p = none) : (l₁ ++ l₂).find? p = l₂.find? p := by
  induction l₁ with
  | nil => rfl
  | cons a tl ih =>
    rcases hp : p a with _ | _
    · simp only [List.cons_append, List.find?_cons, hp] at h ⊢
      exact ih h
    · simp only [List.find?_cons, hp] at h
      cases h

theorem bytesToHex_ne_empty {bs : List Nat} (h : bs ≠ []) : bytesToHex bs ≠ "" := by
  apply ne_empty_of_length_pos
  rw [bytesToHex_length]
  have hl : 0 < bs.length := List.length_pos.mpr h
  omega

/-! ### Reduction lemmas for the two handlers -/

theorem register_user_dup (store : Store) (rng : List Nat) (p : RegisterRequest)
    (h : (store.filter fun r => r.email = p.email).take 1 ≠ []) :
    register_user (some store) rng p =
      (.error ⟨400, "Email already registered"⟩, some store) := by
  simp only [register_user]
  rw [if_pos h]

theorem register_user_new (store : Store) (rng : List Nat) (p : RegisterRequest)
    (h : (store.filter fun r => r.email = p.email).take 1 = []) :
    register_user (some store) rng p =
      (.ok ⟨sha256HexOfString (p.email ++ bytesToHex rng), p.name, p.email⟩,
       some (store ++
         [⟨p.email, p.name, sha256HexOfString (bytesToHex rng ++ p.password),
           bytesToHex rng⟩])) := by
  simp only [register_user, hashPassword]
  rw [if_neg (fun hne => hne h)]

theorem login_user_unknown (store : Store) (rng : List Nat) (q : LoginRequest)
    (h : store.find? (fun r => r.email = q.email) = none) :
    login_user (some store) rng q = (.error ⟨401, "Invalid credentials"⟩, some store) := by
  simp only [login_user, h]

theorem login_user_found (store : Store) (rng : List Nat) (q : LoginRequest) (u : AuthRec)
    (h : store.find? (fun r => r.email = q.email) = some u) :
    login_user (some store) rng q =
      if (hashPassword q.password (some u.salt) rng).1 ≠ u.password_hash then
        (.error ⟨401, "Invalid credentials"⟩, some store)
      else
        (.ok ⟨sha256HexOfString (q.email ++ u.salt), u.name, q.email⟩, some store) := by
  simp only [login_user, h]

theorem filter_take_ne_nil_of_mem {l : List AuthRec} {p : AuthRec → Bool} {r : AuthRec}
    (hr : r ∈ l) (hp : p r = true) : (l.filter p).take 1 ≠ [] := by
  intro htake
  have hnil := take_one_eq_nil htake
  have hmem : r ∈ l.filter p := List.mem_filter.mpr ⟨hr, hp⟩
  rw [hnil] at hmem
  exact List.not_mem_nil r hmem

theorem login_user_preserves (store : Store) (rng : List Nat) (q : LoginRequest) :
    (login_user (some store) rng q).2 = some store := by
  rcases hf : store.find? (fun r => r.email = q.email) with _ | u
  · rw [login_user_unknown store rng q hf]
  · rw [login_user_found store rng q u hf]
    by_cases hh : (hashPassword q.password (some u.salt) rng).1 ≠ u.password_hash
    · rw [if_pos hh]
    · rw [if_neg hh]

/-- A fixed 16-byte value standing for one output of the OS random source
behind `secrets.token_hex(16)`. -/
def rngA : List Nat := [0, 1, 2, 3, 4, 5, 6, 7, 8, 9, 10, 11, 12, 13, 14, 15]

/-! ### Claim theorems -/

/-- C2: for every password `p` and every non-empty supplied salt `s`,
`_hash_password(p, s)` returns as digest the lowercase-hex SHA-256 of the
byte concatenation of the salt text and the UTF-8 password, returns `s`
unchanged as the salt, and is deterministic (its result does not depend
on the random bytes, so two calls with identical inputs agree); it is a
total function, so no string input fails. -/
theorem hash_with_supplied_salt (p s : String) (rng rng' : List Nat) (hs : s ≠ "") :
    hashPassword p (some s) rng = (bytesToHex (sha256Bytes (strBytes s ++ strBytes p)), s) ∧
    (hashPassword p (some s) rng).1.length = 64 ∧
    (hashPassword p (some s) rng).1.data.all isLowerHexChar = true ∧
    hashPassword p (some s) rng = hashPassword p (some s) rng' := by
  have h1 : hashPassword p (some s) rng = (sha256HexOfString (s ++ p), s) := by
    simp only [hashPassword]
    rw [if_neg hs]
  refine ⟨?_, ?_, ?_, ?_⟩
  · rw [h1, sha256HexOfString, strBytes_append]
  · rw [h1]
    exact sha256HexOfString_length (s ++ p)
  · rw [h1]
    exact sha256HexOfString_all_hex (s ++ p)
  · rw [h1]
    simp only [hashPassword]
    rw [if_neg hs]

/-- C2 witness: the digest/salt shape, digest length, lowercase-hex digest
and determinism of `_hash_password` at password `"x"`, salt `"ab"`. -/
theorem hash_with_supplied_salt_check :
    hashPassword "x" (some "ab") [] =
      (bytesToHex (sha256Bytes (strBytes "ab" ++ strBytes "x")), "ab") ∧
    (hashPassword "x" (some "ab") []).1.length = 64 ∧
    (hashPassword "x" (some "ab") []).1.data.all isLowerHexChar = true ∧
    hashPassword "x" (some "ab") [] = hashPassword "x" (some "ab") [7] :=
  hash_with_supplied_salt "x" "ab" [] [7] (by decide)

/-- C7: for every password, when the salt argument is absent or the empty
string, `_hash_password` salts with the hex encoding of the 16 fresh
random bytes (32 lowercase hexadecimal characters) and uses that
generated salt, not the supplied one, in the digest. -/
theorem hash_generates_salt (p : String) (s? : Option String) (rng : List Nat)
    (hs : s? = none ∨ s? = some "") (hlen : rng.length = 16) :
    (hashPassword p s? rng).2 = bytesToHex rng ∧
    (hashPassword p s? rng).2.length = 32 ∧
    (hashPassword p s? rng).2.data.all isLowerHexChar = true ∧
    (hashPassword p s? rng).1 = sha256HexOfString ((hashPassword p s? rng).2 ++ p) := by
  have h2 : hashPassword p s? rng =
      (sha256HexOfString (bytesToHex rng ++ p), bytesToHex rng) := by
    rcases hs with h | h <;> subst h <;> simp [hashPassword]
  rw [h2]
  refine ⟨rfl, ?_, bytesToHex_all_hex rng, rfl⟩
  rw [bytesToHex_length, hlen]

/-- C7 witness: generated-salt behaviour of `_hash_password` at password
`"pw"` with the salt argument absent and a concrete 16-byte random value. -/
theorem hash_generates_salt_check :
    (hashPassword "pw" none rngA).2 = bytesToHex rngA ∧
    (hashPassword "pw" none rngA).2.length = 32 ∧
    (hashPassword "pw" none rngA).2.data.all isLowerHexChar = true ∧
    (hashPassword "pw" none rngA).1 = sha256HexOfString ((hashPassword "pw" none rngA).2 ++ "pw") :=
  hash_generates_salt "pw" none rngA (Or.inl rfl) (by decide)

/-- C6: with the store unavailable (`db is None`), both handlers fail with
the 500 Configuration Error, independently of the request and of the
random bytes, and no store exists to be queried or written. -/
theorem store_unavailable_config_error (rng : List Nat) (p : RegisterRequest)
    (q : LoginRequest) :
    register_user none rng p = (.error ⟨500, "Database not configured"⟩, none) ∧
    login_user none rng q = (.error ⟨500, "Database not configured"⟩, none) :=
  ⟨rfl, rfl⟩

/-- C9: the `collections` field of `GET /test` holds at most 10 names,
whatever the store reports. -/
theorem test_collections_at_most_ten (db : Option (Except String (List String))) :
    (testCollections db).length ≤ 10 := by
  rcases db with _ | r
  · exact Nat.zero_le 10
  · rcases r with e | colls
    · exact Nat.zero_le 10
    · show (colls.take 10).length ≤ 10
      rw [List.length_take]
      exact min_le_left _ _

/-- C3: on an available store, `register_user` either leaves the collection
unchanged or appends exactly one record whose `password_hash` is the digest
of its `salt` concatenated with the submitted plaintext password, and
`login_user` never changes the collection — so a persisted record's `salt`
and `password_hash` are never updated or deleted by either operation. -/
theorem credential_record_invariant (store : Store) (rng : List Nat)
    (name email password : String) :
    ((register_user (some store) rng ⟨name, email, password⟩).2 = some store ∨
      ∃ r : AuthRec,
        (register_user (some store) rng ⟨name, email, password⟩).2 = some (store ++ [r]) ∧
        r.password_hash = sha256HexOfString (r.salt ++ password)) ∧
    ∀ (rng' : List Nat) (email' password' : String),
      (login_user (some store) rng' ⟨email', password'⟩).2 = some store := by
  constructor
  · by_cases h : (store.filter fun r => r.email = email).take 1 = []
    · right
      exact ⟨_, by rw [register_user_new store rng ⟨name, email, password⟩ h], rfl⟩
    · left
      rw [register_user_dup store rng ⟨name, email, password⟩ h]
  · intro rng' email' password'
    exact login_user_preserves store rng' ⟨email', password'⟩

/-- C4: on an available store, a login with an email no record carries, and
a login whose submitted password hashes (with the record's stored salt)
to something other than the stored `password_hash`, both fail with the
identical 401 Invalid Credentials response, leaving the store unchanged. -/
theorem login_invalid_credentials (store : Store) (rng : List Nat)
    (email password : String) :
    (store.find? (fun r => r.email = email) = none →
      login_user (some store) rng ⟨email, password⟩ =
        (.error ⟨401, "Invalid credentials"⟩, some store)) ∧
    ∀ u : AuthRec, store.find? (fun r => r.email = email) = some u →
      u.salt ≠ "" →
      sha256HexOfString (u.salt ++ password) ≠ u.password_hash →
      login_user (some store) rng ⟨email, password⟩ =
        (.error ⟨401, "Invalid credentials"⟩, some store) := by
  constructor
  · intro h
    exact login_user_unknown store rng ⟨email, password⟩ h
  · intro u hu hsalt hne
    rw [login_user_found store rng ⟨email, password⟩ u hu]
    have hhash : (hashPassword password (some u.salt) rng).1 =
        sha256HexOfString (u.salt ++ password) := by
      simp only [hashPassword]
      rw [if_neg hsalt]
    rw [if_pos (by rw [hhash]; exact hne)]

/-- C4 witness: a login against an empty collection (unknown email) yields
exactly the 401 Invalid Credentials failure with the store unchanged. -/
theorem login_invalid_credentials_check :
    login_user (some []) [] ⟨"nobody@x.com", "whatever"⟩ =
      (.error ⟨401, "Invalid credentials"⟩, some []) :=
  (login_invalid_credentials [] [] "nobody@x.com" "whatever").1 rfl

/-- C5: on an available store, if a record with the submitted email already
exists, `register_user` fails with the 400 Duplicate Credential error,
leaving the store unchanged and independently of the random bytes (so
nothing is hashed or persisted); in particular after a successful
registration, a second registration with the same email so fails. -/
theorem register_duplicate (store : Store) (rng : List Nat)
    (name email password : String) :
    ((∃ r ∈ store, r.email = email) →
      register_user (some store) rng ⟨name, email, password⟩ =
        (.error ⟨400, "Email already registered"⟩, some store)) ∧
    ∀ (rng₂ : List Nat) (name₂ password₂ : String) (resp : AuthResponse) (store' : Store),
      register_user (some store) rng ⟨name, email, password⟩ = (.ok resp, some store') →
      register_user (some store') rng₂ ⟨name₂, email, password₂⟩ =
        (.error ⟨400, "Email already registered"⟩, some store') := by
  constructor
  · rintro ⟨r, hr, hre⟩
    exact register_user_dup store rng ⟨name, email, password⟩
      (filter_take_ne_nil_of_mem hr (by simp [hre]))
  · intro rng₂ name₂ password₂ resp store' hreg
    by_cases h : (store.filter fun r => r.email = email).take 1 = []
    · rw [register_user_new store rng ⟨name, email, password⟩ h] at hreg
      simp only [Prod.mk.injEq, Except.ok.injEq, Option.some.injEq] at hreg
      obtain ⟨h1, h2⟩ := hreg
      subst h2
      exact register_user_dup _ rng₂ ⟨name₂, email, password₂⟩
        (filter_take_ne_nil_of_mem
          (r := ⟨email, name, sha256HexOfString (bytesToHex rng ++ password), bytesToHex rng⟩)
          (by simp) (by simp))
    · rw [register_user_dup store rng ⟨name, email, password⟩ h] at hreg
      simp at hreg

/-- C10: on an available store, whenever `register_user` fails it leaves the
collection unchanged, and `login_user` leaves it unchanged on every path. -/
theorem failures_leave_store_unchanged (store : Store) (rng : List Nat)
    (name email password : String) :
    (∀ e : HTTPException,
        (register_user (some store) rng ⟨name, email, password⟩).1 = .error e →
        (register_user (some store) rng ⟨name, email, password⟩).2 = some store) ∧
    ∀ (rng' : List Nat) (email' password' : String),
      (login_user (some store) rng' ⟨email', password'⟩).2 = some store := by
  constructor
  · intro e he
    by_cases h : (store.filter fun r => r.email = email).take 1 = []
    · rw [register_user_new store rng ⟨name, email, password⟩] at he
      · cases he
      · exact h
    · rw [register_user_dup store rng ⟨name, email, password⟩ h]
  · intro rng' email' password'
    exact login_user_preserves store rng' ⟨email', password'⟩

/-- C10 witness: a duplicate-email registration failure leaves the concrete
one-record collection exactly as it was. -/
theorem failures_leave_store_unchanged_check :
    (register_user (some [⟨"a@b.c", "A", "h1", "s1"⟩]) [] ⟨"B", "a@b.c", "pw"⟩).2 =
      some [⟨"a@b.c", "A", "h1", "s1"⟩] :=
  (failures_leave_store_unchanged [⟨"a@b.c", "A", "h1", "s1"⟩] [] "B" "a@b.c" "pw").1
    ⟨400, "Email already registered"⟩ rfl

/-- C1: a successful `register(name, email, password)` followed by
`login(email, password)` against the store register left behind succeeds
and returns the same token, and that token is the digest of the email
concatenated with the persisted record's salt (the hex of the 16 random
bytes). -/
theorem register_login_roundtrip (store : Store) (rng rng' : List Nat)
    (name email password : String) (resp : AuthResponse) (store' : Store)
    (hlen : rng.length = 16)
    (hreg : register_user (some store) rng ⟨name, email, password⟩ = (.ok resp, some store')) :
    ∃ resp' : AuthResponse,
      login_user (some store') rng' ⟨email, password⟩ = (.ok resp', some store') ∧
      resp'.token = resp.token ∧
      resp.token = sha256HexOfString (email ++ bytesToHex rng) := by
  have hrng : rng ≠ [] := by
    intro h
    rw [h] at hlen
    cases hlen
  have hsne : bytesToHex rng ≠ "" := bytesToHex_ne_empty hrng
  by_cases h : (store.filter fun r => r.email = email).take 1 = []
  case neg =>
    rw [register_user_dup store rng ⟨name, email, password⟩ h] at hreg
    simp at hreg
  case pos =>
    rw [register_user_new store rng ⟨name, email, password⟩ h] at hreg
    simp only [Prod.mk.injEq, Except.ok.injEq, Option.some.injEq] at hreg
    obtain ⟨hresp, hstore⟩ := hreg
    subst hresp
    subst hstore
    have hf0 : store.find? (fun r => r.email = email) = none :=
      find?_none_of_filter_nil (take_one_eq_nil h)
    have hfd : (store ++
        [(⟨email, name, sha256HexOfString (bytesToHex rng ++ password),
          bytesToHex rng⟩ : AuthRec)]).find? (fun r => r.email = email) =
        some ⟨email, name, sha256HexOfString (bytesToHex rng ++ password), bytesToHex rng⟩ := by
      rw [find?_append_none hf0]
      simp [List.find?]
    rw [login_user_found _ rng' ⟨email, password⟩ _ hfd]
    have hcond : (hashPassword password (some (bytesToHex rng)) rng').1 =
        sha256HexOfString (bytesToHex rng ++ password) := by
      simp only [hashPassword]
      rw [if_neg hsne]
    rw [if_neg (not_not_intro hcond)]
    exact ⟨_, rfl, rfl, rfl⟩

/-- C1 witness: a concrete register followed by login on the resulting
store succeeds and returns the register token. -/
theorem register_login_roundtrip_check :
    ∃ (resp : AuthResponse) (store' : Store) (resp' : AuthResponse),
      register_user (some []) rngA ⟨"Alice", "alice@x.com", "secret123"⟩ =
        (.ok resp, some store') ∧
      login_user (some store') [] ⟨"alice@x.com", "secret123"⟩ =
        (.ok resp', some store') ∧
      resp'.token = resp.token := by
  obtain ⟨resp, store', hreg⟩ :
      ∃ (resp : AuthResponse) (store' : Store),
        register_user (some []) rngA ⟨"Alice", "alice@x.com", "secret123"⟩ =
          (.ok resp, some store') := ⟨_, _, rfl⟩
  obtain ⟨resp', hlog, htok, _⟩ :=
    register_login_roundtrip [] rngA [] "Alice" "alice@x.com" "secret123" resp store'
      (by decide) hreg
  exact ⟨resp, store', resp', hreg, hlog, htok⟩

/-- C5 witness: registering a fresh email succeeds, and a second
registration with the same email fails with the 400 Duplicate Credential
error, leaving the store as the first registration left it. -/
theorem register_duplicate_check :
    ∃ (resp : AuthResponse) (store' : Store),
      register_user (some []) rngA ⟨"Alice", "alice@x.com", "secret123"⟩ =
        (.ok resp, some store') ∧
      register_user (some store') rngA ⟨"Bob", "alice@x.com", "other"⟩ =
        (.error ⟨400, "Email already registered"⟩, some store') := by
  obtain ⟨resp, store', hreg⟩ :
      ∃ (resp : AuthResponse) (store' : Store),
        register_user (some []) rngA ⟨"Alice", "alice@x.com", "secret123"⟩ =
          (.ok resp, some store') := ⟨_, _, rfl⟩
  exact ⟨resp, store', hreg,
    (register_duplicate [] rngA "Alice" "alice@x.com" "secret123").2
      rngA "Bob" "other" resp store' hreg⟩

/-- C8: every successful `register_user` call returns a non-empty token of
64 lowercase-hex characters and echoes the submitted name and email, and
the record it persists has a 32-character salt and a 64-character
password hash. -/
theorem register_success_shape (store : Store) (rng : List Nat)
    (name email password : String) (resp : AuthResponse) (store' : Store)
    (hlen : rng.length = 16)
    (hreg : register_user (some store) rng ⟨name, email, password⟩ = (.ok resp, some store')) :
    resp.token ≠ "" ∧ resp.token.length = 64 ∧
    resp.token.data.all isLowerHexChar = true ∧
    resp.name = name ∧ resp.email = email ∧
    ∃ r : AuthRec, store' = store ++ [r] ∧ r.salt.length = 32 ∧
      r.password_hash.length = 64 := by
  by_cases h : (store.filter fun r => r.email = email).take 1 = []
  case neg =>
    rw [register_user_dup store rng ⟨name, email, password⟩ h] at hreg
    simp at hreg
  case pos =>
    rw [register_user_new store rng ⟨name, email, password⟩ h] at hreg
    simp only [Prod.mk.injEq, Except.ok.injEq, Option.some.injEq] at hreg
    obtain ⟨hresp, hstore⟩ := hreg
    subst hresp
    subst hstore
    refine ⟨sha256HexOfString_ne_empty _, sha256HexOfString_length _,
      sha256HexOfString_all_hex _, rfl, rfl, _, rfl, ?_, sha256HexOfString_length _⟩
    show (bytesToHex rng).length = 32
    rw [bytesToHex_length, hlen]

/-- C8 witness: the concrete scenario
`register("Alice", "alice@x.com", "secret123")` on an empty store. -/
theorem register_success_shape_check :
    ∃ (resp : AuthResponse) (store' : Store),
      register_user (some []) rngA ⟨"Alice", "alice@x.com", "secret123"⟩ =
        (.ok resp, some store') ∧
      resp.token ≠ "" ∧ resp.token.length = 64 ∧
      resp.name = "Alice" ∧ resp.email = "alice@x.com" ∧
      ∃ r : AuthRec, store' = [] ++ [r] ∧ r.salt.length = 32 ∧
        r.password_hash.length = 64 := by
  obtain ⟨resp, store', hreg⟩ :
      ∃ (resp : AuthResponse) (store' : Store),
        register_user (some []) rngA ⟨"Alice", "alice@x.com", "secret123"⟩ =
          (.ok resp, some store') := ⟨_, _, rfl⟩
  obtain ⟨hne, hlen, _, hn, he, hr⟩ :=
    register_success_shape [] rngA "Alice" "alice@x.com" "secret123" resp store'
      (by decide) hreg
  exact ⟨resp, store', hreg, hne, hlen, hn, he, hr⟩
